import Mathlib

/-!
Verification development for the go-file-extract tool.

The repository holds two variants of the same program:
* `src/main.go` — the `App`-structured variant (functions `parseArguments`,
  `getData`, `getSavedConfig`, `saveCurrentConfig`, `filterOutFlag`, `main`);
* `src/unnamed/part_000` — the original single-`main` variant with global
  state.  Definitions modelling it carry a `_v0` suffix (or a `v0` prefix).

Go maps from strings are modelled as association lists with
insert-replaces-key semantics (`assocInsert`) and first-match lookup
(`lookupA`); a missing key behaves like Go's zero value.  External effects
(file reads, subprocess execution, the gitignore matcher, regex
compilation, `filepath.Rel`) are oracles gathered in `Env` / `RunCtx`;
fatal `log.Fatalf` exits are the `.error` branch of `Except String`.
-/

/-- First-match lookup in an association list: Go's `m[k]` returning
`(value, ok)`. -/
def lookupA {α : Type} : List (String × α) → String → Option α
  | [], _ => none
  | (k, v) :: rest, key => if k = key then some v else lookupA rest key

/-- Go's `m[k] = v` on a string-keyed map: replace the binding if the key is
present, append it otherwise. -/
def assocInsert {α : Type} : List (String × α) → String → α → List (String × α)
  | [], k, v => [(k, v)]
  | (k0, v0) :: rest, k, v =>
    if k0 = k then (k, v) :: rest else (k0, v0) :: assocInsert rest k v

/-- `FolderConfig` of both variants: preset name to the saved argument
tokens. -/
structure FolderConfig where
  savedName : List (String × List String)

/-- `Config` of both variants: folder path to its presets, and the persisted
extension-to-command map. -/
structure Config where
  folders : List (String × FolderConfig)
  fileTypeExecutables : List (String × String)

/-- The empty configuration (no config file on disk). -/
def emptyConfig : Config :=
  { folders := [], fileTypeExecutables := [] }

/-- `filterOutFlag` from `src/main.go`: drop every occurrence of `flag` and
the token immediately after it. -/
def filterOutFlag : List String → String → List String
  | [], _ => []
  | a :: rest, flag =>
    if a = flag then
      match rest with
      | [] => []
      | _ :: rest2 => filterOutFlag rest2 flag
    else a :: filterOutFlag rest flag

/-- `App.saveCurrentConfig` from `src/main.go`: store the `-name`-filtered
argument list under `(dir, name)` (the `saveConfig` disk write is outside the
model). -/
def saveCurrentConfig (cfg : Config) (dir name : String) (args : List String) : Config :=
  let fc := (lookupA cfg.folders dir).getD { savedName := [] }
  { folders :=
      assocInsert cfg.folders dir
        { savedName := assocInsert fc.savedName name (filterOutFlag args "-name") },
    fileTypeExecutables := cfg.fileTypeExecutables }

/-- `App.getSavedConfig` from `src/main.go`: the guard
`!exists || SavedName == nil || len(SavedName[name]) == 0` errors; a Go
lookup in a nil map yields the empty slice, so absent and empty entries are
both errors. -/
def getSavedConfig (cfg : Config) (dir name : String) : Except String (List String) :=
  match lookupA cfg.folders dir with
  | none =>
    .error ("no saved arguments found for name '" ++ name ++ "' in folder '" ++ dir ++ "'")
  | some fc =>
    match lookupA fc.savedName name with
    | none =>
      .error ("no saved arguments found for name '" ++ name ++ "' in folder '" ++ dir ++ "'")
    | some l =>
      if l = [] then
        .error ("no saved arguments found for name '" ++ name ++ "' in folder '" ++ dir ++ "'")
      else .ok l

/-- The `-name` save path of `src/unnamed/part_000` (lines 179-206): the
argument list `os.Args[1:]` is stored verbatim, with no filtering. -/
def savePreset_v0 (cfg : Config) (dir name : String) (args : List String) : Config :=
  let fc := (lookupA cfg.folders dir).getD { savedName := [] }
  { folders :=
      assocInsert cfg.folders dir { savedName := assocInsert fc.savedName name args },
    fileTypeExecutables := cfg.fileTypeExecutables }

/-- The `-by-name` lookup guard of `src/unnamed/part_000` (lines 215-218):
same condition as `getSavedConfig`, with the capitalized fatal message. -/
def getSaved_v0 (cfg : Config) (dir name : String) : Except String (List String) :=
  match lookupA cfg.folders dir with
  | none =>
    .error ("No saved arguments found for name '" ++ name ++ "' in folder '" ++ dir ++ "'")
  | some fc =>
    match lookupA fc.savedName name with
    | none =>
      .error ("No saved arguments found for name '" ++ name ++ "' in folder '" ++ dir ++ "'")
    | some l =>
      if l = [] then
        .error ("No saved arguments found for name '" ++ name ++ "' in folder '" ++ dir ++ "'")
      else .ok l

/-- Whether an `Except` is the error branch (a `log.Fatalf` exit). -/
def isErr {ε α : Type} : Except ε α → Bool
  | .error _ => true
  | .ok _ => false

/-- The stored token list for `(dir, name)`, reading through both maps with
Go's nil-map behaviour. -/
def savedLookup (cfg : Config) (dir name : String) : Option (List String) :=
  match lookupA cfg.folders dir with
  | none => none
  | some fc => lookupA fc.savedName name

theorem lookupA_assocInsert {α : Type} (l : List (String × α)) (k : String) (v : α) :
    lookupA (assocInsert l k v) k = some v := by
  induction l with
  | nil => simp [assocInsert, lookupA]
  | cons hd tl ih =>
    obtain ⟨k0, v0⟩ := hd
    by_cases h : k0 = k
    · simp [assocInsert, h, lookupA]
    · simp [assocInsert, h, lookupA, ih]

example :
    getSavedConfig (saveCurrentConfig emptyConfig "/d" "p" ["-files", "a.py", "-name", "p"]) "/d" "p"
      = .ok ["-files", "a.py"] := rfl

example :
    getSaved_v0 (savePreset_v0 emptyConfig "/d" "p" ["-name", "p", "-files", "a.py"]) "/d" "p"
      = .ok ["-name", "p", "-files", "a.py"] := rfl

/-- The parsed command-line options of both variants (`parseArguments` in
`src/main.go`; the inline parse loop of `src/unnamed/part_000`), with the
source's defaults. -/
structure Opts where
  files : List String := []
  ignorePattern : String := ""
  ignoreGitIgnore : Bool := false
  delimiter : String := "======"
  wrapCode : Bool := true
  saveName : String := ""
  byName : String := ""
  execCommand : String := ""
  fileExecs : List (String × String) := []

/-- Go's `strings.HasPrefix(arg, "-")`: the first character is a dash. -/
def hasDashPrefix (s : String) : Bool :=
  match s.data with
  | [] => false
  | c :: _ => c = '-'

/-- The greedy value collection of `-files`: consume tokens until one starts
with a dash. -/
def takeFiles : List String → List String × List String
  | [] => ([], [])
  | x :: xs =>
    if hasDashPrefix x then ([], x :: xs)
    else
      let p := takeFiles xs
      (x :: p.1, p.2)

/-- Go's `strings.Fields` (split on runs of white space, no empty fields),
on the ASCII white space the tool's inputs use. -/
def fieldsAux : List Char → List Char → List String
  | [], cur => if cur = [] then [] else [String.mk cur.reverse]
  | c :: cs, cur =>
    if c.isWhitespace then
      if cur = [] then fieldsAux cs [] else String.mk cur.reverse :: fieldsAux cs []
    else fieldsAux cs (c :: cur)

/-- See `fieldsAux`. -/
def fields (s : String) : List String := fieldsAux s.data []

/-- Go's `strings.SplitN(pair, "=", 2)` restricted to what the parser checks:
`some (before, after)` at the first `=`, `none` when there is no `=`
(the `len(parts) != 2` error case). -/
def splitFirstEq : List Char → Option (List Char × List Char)
  | [] => none
  | c :: cs =>
    if c = '=' then some ([], cs)
    else
      match splitFirstEq cs with
      | none => none
      | some p => some (c :: p.1, p.2)

/-- The `-file-exec` pair loop: each `.ext=cmd` pair is inserted into the
map; a pair without `=` fails the parse. -/
def parsePairs : List String → List (String × String) → Except String (List (String × String))
  | [], acc => .ok acc
  | pair :: rest, acc =>
    match splitFirstEq pair.data with
    | none => .error "invalid format for -file-exec. Expected '.ext=executable'"
    | some p => parsePairs rest (assocInsert acc (String.mk p.1) (String.mk p.2))

/-- The token loop shared by `parseArguments` (`src/main.go`, lines 126-200)
and the inline parser of `src/unnamed/part_000` (lines 107-176): the same
switch over flags (the `_v0` variant capitalizes its fatal messages, which
no claim depends on).  The `fuel` argument only makes the recursion
structural; every step consumes at least one token, so the fuel
`parseArguments` supplies (one per token) is never exhausted. -/
def parseLoop : Nat → Opts → List String → Except String Opts
  | _, acc, [] => .ok acc
  | 0, _, _ :: _ => .error "out of fuel"
  | fuel + 1, acc, a :: rest =>
    if a = "-ignore-pattern" then
      match rest with
      | [] => .error "missing value for -ignore-pattern"
      | v :: rest2 => parseLoop fuel { acc with ignorePattern := v } rest2
    else if a = "-ignore-gitignore" then
      parseLoop fuel { acc with ignoreGitIgnore := true } rest
    else if a = "-delimiter" then
      match rest with
      | [] => .error "missing value for -delimiter"
      | v :: rest2 => parseLoop fuel { acc with delimiter := v } rest2
    else if a = "-wrap-code" then
      match rest with
      | [] => .error "missing value for -wrap-code"
      | v :: rest2 =>
        parseLoop fuel (if v = "false" then { acc with wrapCode := false } else acc) rest2
    else if a = "-name" then
      match rest with
      | [] => .error "missing value for -name"
      | v :: rest2 => parseLoop fuel { acc with saveName := v } rest2
    else if a = "-by-name" then
      match rest with
      | [] => .error "missing value for -by-name"
      | v :: rest2 => parseLoop fuel { acc with byName := v } rest2
    else if a = "-files" then
      match rest with
      | [] => .error "missing value for -files"
      | _ :: _ =>
        parseLoop fuel { acc with files := acc.files ++ (takeFiles rest).1 } (takeFiles rest).2
    else if a = "-exec" then
      match rest with
      | [] => .error "missing value for -exec"
      | v :: rest2 => parseLoop fuel { acc with execCommand := v } rest2
    else if a = "-file-exec" then
      match rest with
      | [] => .error "missing value for -file-exec"
      | v :: rest2 =>
        match parsePairs (fields v) acc.fileExecs with
        | .error e => .error e
        | .ok fe => parseLoop fuel { acc with fileExecs := fe } rest2
    else .error ("unknown argument: " ++ a)

/-- `parseArguments` from `src/main.go` (and the identical inline loop of
`src/unnamed/part_000`): all-or-nothing parse of the token list after the
program name. -/
def parseArguments (args : List String) : Except String Opts :=
  parseLoop args.length {} args

example :
    parseArguments ["-files", "a.py", "b.txt", "-wrap-code", "false", "-delimiter", "--"]
      = .ok { files := ["a.py", "b.txt"], wrapCode := false, delimiter := "--" } := rfl

example :
    parseArguments ["-files", "-name", "x"]
      = .ok { files := [], saveName := "x" } := rfl

example : parseArguments ["-file-exec", ".go=golint .py=pylint"]
      = .ok { fileExecs := [(".go", "golint"), (".py", "pylint")] } := rfl

example : parseArguments ["-oops"] = .error "unknown argument: -oops" := rfl

example : parseArguments ["-file-exec", "nopair"]
      = .error "invalid format for -file-exec. Expected '.ext=executable'" := rfl

/-- Go's `filepath.Ext`: scan the path from its end; the suffix from the
final dot, empty when a separator or the start comes first. -/
def extFromRev : List Char → List Char → String
  | [], _ => ""
  | c :: rest, acc =>
    if c = '/' then ""
    else if c = '.' then String.mk ('.' :: acc)
    else extFromRev rest (c :: acc)

/-- See `extFromRev`. -/
def filepathExt (s : String) : String := extFromRev s.data.reverse []

/-- The static extension-to-language table (identical in both variants). -/
def languageMap : List (String × String) :=
  [(".go", "go"), (".js", "javascript"), (".ts", "typescript"), (".fish", "fish"),
   (".py", "python"), (".java", "java"), (".cpp", "cpp"), (".c", "c"),
   (".html", "html"), (".css", "css"), (".sh", "bash"), (".md", "markdown"),
   (".json", "json"), (".yaml", "yaml"), (".yml", "yaml"), (".rs", "rust"),
   (".php", "php"), (".rb", "ruby")]

/-- `language := languageMap[ext]; if language == "" { language = "plaintext" }`:
a Go map miss yields `""`, and no table entry is `""`. -/
def languageFor (e : String) : String :=
  match lookupA languageMap e with
  | some l => l
  | none => "plaintext"

/-- Result of one `exec.Command(...).CombinedOutput()` call: combined
stdout+stderr, and on a launch failure or non-zero exit also the Go error
text. -/
inductive ExecRes where
  | ok (out : String)
  | err (msg out : String)

/-- The world outside the process: `os.ReadFile` (`none` = read error),
process execution, `filepath.Rel(".", path)` (`none` = error), the gitignore
matcher when a repository was detected and its patterns read, and
`regexp.Compile`. -/
structure Env where
  read : String → Option String
  exec : String → List String → ExecRes
  rel : String → Option String
  gitMatcher : Option (String → Bool)
  compile : String → Except String (String → Bool)

/-- Everything the per-file loop of `getData` (`src/main.go`, lines 262-337)
and of `src/unnamed/part_000` (lines 296-371) reads. -/
structure RunCtx where
  read : String → Option String
  exec : String → List String → ExecRes
  rel : String → Option String
  ignoreRegex : Option (String → Bool)
  ignoreGitIgnore : Bool
  gitM : Option (String → Bool)
  delimiter : String
  wrapCode : Bool
  execCommand : String
  merged : List (String × String)

/-- `-ignore-pattern` filter: `ignoreRegex != nil && ignoreRegex.MatchString(path)`. -/
def regexSkip (ctx : RunCtx) (f : String) : Bool :=
  match ctx.ignoreRegex with
  | some m => m f
  | none => false

/-- Gitignore filter: with a matcher present and `-ignore-gitignore` unset,
skip when `filepath.Rel` errors (logged, `continue`) or the relative path
matches. -/
def gitSkip (ctx : RunCtx) (f : String) : Bool :=
  match ctx.gitM with
  | none => false
  | some m =>
    if ctx.ignoreGitIgnore then false
    else
      match ctx.rel f with
      | none => true
      | some r => m r

/-- A file the loop drops before touching executables or content. -/
def skipsFile (ctx : RunCtx) (f : String) : Bool :=
  regexSkip ctx f || gitSkip ctx f

/-- Executable resolution for one file: the `-exec` override, else the
merged per-extension map, else none (the empty string). -/
def resolveExec (ctx : RunCtx) (e : String) : String :=
  if ctx.execCommand ≠ "" then ctx.execCommand
  else
    match lookupA ctx.merged e with
    | some cmd => cmd
    | none => ""

/-- Running a resolved (non-empty) command: split on white space, append the
file path as last argument, capture combined output; a launch failure or
non-zero exit is fatal with the source's diagnostic. -/
def runResolved (ctx : RunCtx) (executable f : String) : Except String String :=
  match fields executable with
  | [] => .error ("invalid executable command: " ++ executable)
  | p :: ps =>
    match ctx.exec p (ps ++ [f]) with
    | .ok out => .ok out
    | .err emsg out =>
      .error ("failed to run executable '" ++ executable ++ "' with file '" ++ f ++ "': "
        ++ emsg ++ "\nOutput: " ++ out)

/-- `src/main.go`: `executableOutput` is declared inside the loop body, so a
file with no resolved command has an empty captured output. -/
def execStep (ctx : RunCtx) (executable f : String) : Except String String :=
  if executable = "" then .ok "" else runResolved ctx executable f

/-- `src/unnamed/part_000`: `executableOutput` is declared once before the
loop (line 105), so a file with no resolved command keeps the value carried
over from earlier iterations. -/
def v0ExecStep (ctx : RunCtx) (carry executable f : String) : Except String String :=
  if executable = "" then .ok carry else runResolved ctx executable f

/-- The block both variants append for one emitted file: path, optional
fenced and language-tagged content, the captured executable output when
non-empty, then the delimiter; each segment followed by one newline. -/
def renderBlock (ctx : RunCtx) (f content execOut : String) : String :=
  f ++ "\n"
    ++ (if ctx.wrapCode then "```" ++ languageFor (filepathExt f) ++ "\n" else "")
    ++ content ++ "\n"
    ++ (if ctx.wrapCode then "```\n" else "")
    ++ (if execOut ≠ "" then execOut ++ "\n" else "")
    ++ ctx.delimiter ++ "\n"

/-- The per-file loop of `getData` in `src/main.go` (lines 262-337): regex
filter, gitignore filter, executable resolution and invocation (fatal on
failure), content read (logged skip on failure), block emission. -/
def getDataLoop (ctx : RunCtx) : List String → Except String String
  | [] => .ok ""
  | f :: rest =>
    if regexSkip ctx f then getDataLoop ctx rest
    else if gitSkip ctx f then getDataLoop ctx rest
    else
      match execStep ctx (resolveExec ctx (filepathExt f)) f with
      | .error e => .error e
      | .ok execOut =>
        match ctx.read f with
        | none => getDataLoop ctx rest
        | some content =>
          match getDataLoop ctx rest with
          | .error e => .error e
          | .ok restOut => .ok (renderBlock ctx f content execOut ++ restOut)

/-- The per-file loop of `src/unnamed/part_000` (lines 296-371): identical
to `getDataLoop` except that the captured output `carry` survives from one
iteration to the next and is only overwritten when a command runs. -/
def v0Loop (ctx : RunCtx) (carry : String) : List String → Except String String
  | [] => .ok ""
  | f :: rest =>
    if regexSkip ctx f then v0Loop ctx carry rest
    else if gitSkip ctx f then v0Loop ctx carry rest
    else
      match v0ExecStep ctx carry (resolveExec ctx (filepathExt f)) f with
      | .error e => .error e
      | .ok carry2 =>
        match ctx.read f with
        | none => v0Loop ctx carry2 rest
        | some content =>
          match v0Loop ctx carry2 rest with
          | .error e => .error e
          | .ok restOut => .ok (renderBlock ctx f content carry2 ++ restOut)

/-- The merge of the persisted `fileTypeExecutables` with the `-file-exec`
overrides (`src/main.go`, lines 230-237): command-line pairs win. -/
def mergeAssoc (base overrides : List (String × String)) : List (String × String) :=
  overrides.foldl (fun acc p => assocInsert acc p.1 p.2) base

/-- The context the loop of either variant runs in: compiled ignore regex
(`none` when no pattern was supplied), the gitignore matcher unless
`-ignore-gitignore` was set, and the merged executable map. -/
def buildRunCtx (env : Env) (ir : Option (String → Bool)) (ignoreGitIgnore : Bool)
    (delimiter : String) (wrapCode : Bool) (execCommand : String)
    (fileExecs fileTypeExecutables : List (String × String)) : RunCtx :=
  { read := env.read, exec := env.exec, rel := env.rel,
    ignoreRegex := ir,
    ignoreGitIgnore := ignoreGitIgnore,
    gitM := if ignoreGitIgnore then none else env.gitMatcher,
    delimiter := delimiter, wrapCode := wrapCode,
    execCommand := execCommand,
    merged := mergeAssoc fileTypeExecutables fileExecs }

/-- `getData` from `src/main.go` (lines 203-339): compile the ignore pattern
(fatal on a bad regex), set up the filters and merged executables, run the
loop. -/
def getData (env : Env) (files : List String) (ignorePattern : String)
    (ignoreGitIgnore : Bool) (delimiter : String) (wrapCode : Bool)
    (execCommand : String) (fileExecs fileTypeExecutables : List (String × String)) :
    Except String String :=
  if ignorePattern = "" then
    getDataLoop
      (buildRunCtx env none ignoreGitIgnore delimiter wrapCode execCommand
        fileExecs fileTypeExecutables) files
  else
    match env.compile ignorePattern with
    | .error e => .error ("invalid regex pattern: " ++ e)
    | .ok m =>
      getDataLoop
        (buildRunCtx env (some m) ignoreGitIgnore delimiter wrapCode execCommand
          fileExecs fileTypeExecutables) files

/-- The processing stage of `src/unnamed/part_000` (lines 259-371): same
set-up as `getData`, but running the carry-over loop with the initial empty
captured output. -/
def v0GetData (env : Env) (opts : Opts) (fileTypeExecutables : List (String × String)) :
    Except String String :=
  if opts.ignorePattern = "" then
    v0Loop
      (buildRunCtx env none opts.ignoreGitIgnore opts.delimiter opts.wrapCode
        opts.execCommand opts.fileExecs fileTypeExecutables) "" opts.files
  else
    match env.compile opts.ignorePattern with
    | .error e => .error ("Invalid regex pattern: " ++ e)
    | .ok m =>
      v0Loop
        (buildRunCtx env (some m) opts.ignoreGitIgnore opts.delimiter opts.wrapCode
          opts.execCommand opts.fileExecs fileTypeExecutables) "" opts.files

/-- An environment for concrete runs: the given read oracle, subprocesses
that succeed with empty output, trivial relative paths, no repository, and
a regex compiler that matches nothing. -/
def envOf (read : String → Option String) : Env :=
  { read := read, exec := fun _ _ => .ok "", rel := fun f => some f,
    gitMatcher := none, compile := fun _ => .ok (fun _ => false) }

/-- The file contents of the spec's two-file scenario. -/
def readScenario : String → Option String :=
  fun f =>
    if f = "a.py" then some "print(1)"
    else if f = "b.unknown" then some "xyz"
    else none

example : filepathExt "a.py" = ".py" := rfl
example : filepathExt "b.unknown" = ".unknown" := rfl
example : filepathExt "noext" = "" := rfl
example : filepathExt "dir.d/file" = "" := rfl

example :
    getData (envOf readScenario) ["a.py", "b.unknown"] "" false "======" true "" [] []
      = .ok "a.py\n```python\nprint(1)\n```\n======\nb.unknown\n```plaintext\nxyz\n```\n======\n" := rfl

/-- What a successful invocation ends in: a preset saved (with the updated
configuration that `saveConfig` writes out), or text copied to the
clipboard. -/
inductive Outcome where
  | saved (name dir : String) (cfg : Config)
  | copied (text : String)

/-- `main` from `src/main.go` (lines 341-441).  `stdinChoice` is what
`fmt.Scanln(&choice)` yields: `none` for a scan error, otherwise the number
read.  Interactive selection runs only when the argument list is empty; the
`byName` the parser returns is discarded (line 407 binds it to `_`). -/
def mainGo (env : Env) (cfg : Config) (cwd : String) (argv : List String)
    (stdinChoice : Option Int) : Except String Outcome :=
  let argsE : Except String (List String) :=
    if argv = [] then
      match lookupA cfg.folders cwd with
      | none => .error ("No saved configurations found for folder '" ++ cwd ++ "'")
      | some fc =>
        if fc.savedName = [] then
          .error ("No saved configurations found for folder '" ++ cwd ++ "'")
        else
          match stdinChoice with
          | none => .error "Invalid choice"
          | some c =>
            if c < 1 ∨ c > ((fc.savedName.map Prod.fst).length : Int) then
              .error "Invalid choice"
            else
              match getSavedConfig cfg cwd ((fc.savedName.map Prod.fst).getD (c - 1).toNat "") with
              | .error e => .error ("Failed to load saved configuration: " ++ e)
              | .ok savedArgs => .ok savedArgs
    else .ok argv
  match argsE with
  | .error e => .error e
  | .ok args =>
    match parseArguments args with
    | .error e => .error ("Failed to parse arguments: " ++ e)
    | .ok opts =>
      if opts.saveName ≠ "" then
        .ok (.saved opts.saveName cwd (saveCurrentConfig cfg cwd opts.saveName args))
      else if opts.files = [] then
        .error "No files specified. Please provide at least one file."
      else
        match getData env opts.files opts.ignorePattern opts.ignoreGitIgnore opts.delimiter
            opts.wrapCode opts.execCommand opts.fileExecs cfg.fileTypeExecutables with
        | .error e => .error ("Failed to process files: " ++ e)
        | .ok out => .ok (.copied out)

/-- The usage-plus-hint fatal message of `src/unnamed/part_000` (line 228). -/
def v0UsageMsg (prog cwd : String) : String :=
  "Usage: " ++ prog
    ++ " -files <file1> <file2> ... [-ignore-pattern <regex>] [-ignore-gitignore]"
    ++ " [-delimiter <string>] [-wrap-code <true|false>] [-name <name>] [-by-name <name>]"
    ++ " [-exec <command>] [-file-exec .ext=executable]\n\nNo saved arguments found in folder '"
    ++ cwd ++ "'. Please save arguments first using the -name option."

/-- The preset-selection stage of `src/unnamed/part_000` (lines 208-257):
the value it computes is what the program assigns to `os.Args`.
`stdinIndex` is the result of `Sscanf(input, "%d", &index)` over the
interactive line, `0` when nothing numeric was read.  Go's map iteration
order is modelled as the association-list order. -/
def v0Select (cfg : Config) (prog cwd : String) (opts : Opts) (stdinIndex : Int) :
    Except String (Option (List String)) :=
  if opts.byName ≠ "" then
    match getSaved_v0 cfg cwd opts.byName with
    | .error e => .error e
    | .ok storedArgs => .ok (some storedArgs)
  else if opts.files = [] then
    match lookupA cfg.folders cwd with
    | none => .error (v0UsageMsg prog cwd)
    | some fc =>
      if fc.savedName = [] then .error (v0UsageMsg prog cwd)
      else
        if (fc.savedName.map Prod.fst).length = 1 then
          .ok (some ((lookupA fc.savedName ((fc.savedName.map Prod.fst).getD 0 "")).getD []))
        else
          if stdinIndex < 1 ∨ stdinIndex > ((fc.savedName.map Prod.fst).length : Int) then
            .error "Invalid selection"
          else
            .ok (some ((lookupA fc.savedName
              ((fc.savedName.map Prod.fst).getD (stdinIndex - 1).toNat "")).getD []))
  else .ok none

/-- `main` from `src/unnamed/part_000` (lines 96-379).  After `v0Select`
replaces `os.Args` its result is discarded: the parse ran before it (lines
107-176), `os.Args` is never read again, and the loop uses the options
parsed from the original `argv`. -/
def v0Main (env : Env) (cfg : Config) (prog cwd : String) (argv : List String)
    (stdinIndex : Int) : Except String Outcome :=
  match parseArguments argv with
  | .error e => .error e
  | .ok opts =>
    if opts.saveName ≠ "" then
      .ok (.saved opts.saveName cwd (savePreset_v0 cfg cwd opts.saveName argv))
    else
      match v0Select cfg prog cwd opts stdinIndex with
      | .error e => .error e
      | .ok _ =>
        match v0GetData env opts cfg.fileTypeExecutables with
        | .error e => .error e
        | .ok out => .ok (.copied out)

/-- A configuration with the single preset `p ↦ [-files a.py]` for `/d`. -/
def cfgP : Config :=
  { folders := [("/d", { savedName := [("p", ["-files", "a.py"])] })],
    fileTypeExecutables := [] }

example :
    v0Main (envOf readScenario) cfgP "prog" "/d" ["-by-name", "p"] 0
      = .ok (.copied "") := rfl

example :
    mainGo (envOf readScenario) cfgP "/d" [] (some 1)
      = .ok (.copied "a.py\n```python\nprint(1)\n```\n======\n") := rfl

example :
    mainGo (envOf readScenario) cfgP "/d" ["-by-name", "p"] (some 1)
      = .error "No files specified. Please provide at least one file." := rfl

example :
    v0Main (envOf readScenario) cfgP "prog" "/d" ["-by-name", "q"] 0
      = .error "No saved arguments found for name 'q' in folder '/d'" := rfl

example :
    mainGo (envOf readScenario) cfgP "/d" [] none = .error "Invalid choice" := rfl

example :
    v0Main (envOf readScenario) emptyConfig "prog" "/d" [] 0
      = .error (v0UsageMsg "prog" "/d") := rfl

example :
    v0Main (envOf readScenario) cfgP "prog" "/d" [] 5 = .ok (.copied "") := rfl

theorem stringDataAppend (a b : String) : (a ++ b).data = a.data ++ b.data := rfl

theorem stringAppendAssoc (a b c : String) : a ++ b ++ c = a ++ (b ++ c) :=
  congrArg String.mk (List.append_assoc a.data b.data c.data)

theorem stringAppendNil (s : String) : s ++ "" = s :=
  congrArg String.mk (List.append_nil s.data)

/-- C1 (corrected): the save-then-resolve round trip.  In `src/main.go` it
returns the token list with every `-name` pair stripped, provided that
filtered list is non-empty; in `src/unnamed/part_000` the save path stores
`os.Args[1:]` unfiltered, so the round trip returns the tokens with the
`-name` pair still present. -/
theorem c1_save_resolve_roundtrip :
    (∀ (cfg : Config) (dir name : String) (args : List String),
        filterOutFlag args "-name" ≠ [] →
        getSavedConfig (saveCurrentConfig cfg dir name args) dir name
          = .ok (filterOutFlag args "-name"))
    ∧ (∀ (cfg : Config) (dir name : String) (args : List String),
        args ≠ [] →
        getSaved_v0 (savePreset_v0 cfg dir name args) dir name = .ok args) := by
  constructor
  · intro cfg dir name args h
    simp [saveCurrentConfig, getSavedConfig, lookupA_assocInsert, h]
  · intro cfg dir name args h
    simp [savePreset_v0, getSaved_v0, lookupA_assocInsert, h]

/-- C1, witness: a concrete round trip through each variant. -/
theorem c1_save_resolve_roundtrip_witness :
    getSavedConfig (saveCurrentConfig emptyConfig "/d" "p" ["-files", "a.py", "-name", "p"]) "/d" "p"
      = .ok ["-files", "a.py"]
    ∧ getSaved_v0 (savePreset_v0 emptyConfig "/d" "p" ["-files", "a.py"]) "/d" "p"
      = .ok ["-files", "a.py"] :=
  ⟨c1_save_resolve_roundtrip.1 emptyConfig "/d" "p" ["-files", "a.py", "-name", "p"] (by decide),
   c1_save_resolve_roundtrip.2 emptyConfig "/d" "p" ["-files", "a.py"] (by decide)⟩

/-- C1, counterexample: the `part_000` round trip keeps the `-name p` pair
that the claim says is removed, and in `src/main.go` an argument list that
filters to nothing is stored but resolution then fails instead of returning
the empty token sequence. -/
theorem c1_name_pair_retained :
    getSaved_v0 (savePreset_v0 emptyConfig "/d" "p" ["-name", "p", "-files", "a.py"]) "/d" "p"
      = .ok ["-name", "p", "-files", "a.py"]
    ∧ filterOutFlag ["-name", "p", "-files", "a.py"] "-name" = ["-files", "a.py"]
    ∧ isErr (getSavedConfig (saveCurrentConfig emptyConfig "/d" "p" ["-name", "p"]) "/d" "p")
      = true :=
  ⟨rfl, rfl, rfl⟩

/-- C10 (confirmed): `getSavedConfig` errors exactly when the stored list
for `(dir, name)` is absent or empty, and a preset saved from an argument
list that is just `-name <value>` is written as the empty list and can never
be retrieved. -/
theorem c10_empty_preset_unretrievable :
    (∀ (cfg : Config) (dir name : String),
        isErr (getSavedConfig cfg dir name) = true ↔
          (savedLookup cfg dir name = none ∨ savedLookup cfg dir name = some []))
    ∧ (∀ (cfg : Config) (dir name v : String),
        savedLookup (saveCurrentConfig cfg dir name ["-name", v]) dir name = some []
        ∧ isErr (getSavedConfig (saveCurrentConfig cfg dir name ["-name", v]) dir name)
          = true) := by
  constructor
  · intro cfg dir name
    unfold getSavedConfig savedLookup
    cases h1 : lookupA cfg.folders dir with
    | none => simp [isErr]
    | some fc =>
      cases h2 : lookupA fc.savedName name with
      | none => simp [isErr, h2]
      | some l =>
        by_cases h3 : l = []
        · subst h3; simp [isErr, h2]
        · simp [h2, h3, isErr]
  · intro cfg dir name v
    constructor
    · simp [saveCurrentConfig, savedLookup, lookupA_assocInsert, filterOutFlag]
    · simp [saveCurrentConfig, getSavedConfig, lookupA_assocInsert, filterOutFlag, isErr]

/-- C2 (code_bug): in `src/unnamed/part_000` a replayed preset is never
re-parsed — `os.Args` is replaced after the parse loop already ran and is
never read again — so replaying `p ↦ [-files a.py]` by name copies the empty
output of the original (file-less) option record instead of processing
`a.py`; the `src/main.go` interactive path does re-parse and processes the
stored file list. -/
theorem c2_preset_not_reparsed_v0 :
    v0Main (envOf readScenario) cfgP "prog" "/d" ["-by-name", "p"] 0 = .ok (.copied "")
    ∧ mainGo (envOf readScenario) cfgP "/d" [] (some 1)
        = .ok (.copied "a.py\n```python\nprint(1)\n```\n======\n") :=
  ⟨rfl, rfl⟩

/-- C4 (code_bug): `src/main.go` discards the parsed `-by-name` value, so an
invocation `-by-name p` dies with `No files specified` even though preset
`p` exists; `src/unnamed/part_000` does fail on a missing name with a
message naming folder and preset, but an existing preset's stored list is
assigned to `os.Args` after parsing and never replayed (empty output). -/
theorem c4_by_name_eval :
    mainGo (envOf readScenario) cfgP "/d" ["-by-name", "p"] (some 1)
      = .error "No files specified. Please provide at least one file."
    ∧ v0Main (envOf readScenario) cfgP "prog" "/d" ["-by-name", "q"] 0
      = .error "No saved arguments found for name 'q' in folder '/d'"
    ∧ v0Main (envOf readScenario) cfgP "prog" "/d" ["-by-name", "p"] 0 = .ok (.copied "") :=
  ⟨rfl, rfl, rfl⟩

/-- C5, counterexample: with exactly one preset stored for `/d` and an empty
argument list, `src/main.go` still prompts — the outcome depends on the
interactive answer (`none`, a failed `Scanln`, is fatal; `1` selects) — and
with a non-empty argument list but an empty file list no preset resolution
happens at all. -/
theorem c5_single_preset_prompts :
    mainGo (envOf readScenario) cfgP "/d" [] none = .error "Invalid choice"
    ∧ mainGo (envOf readScenario) cfgP "/d" [] (some 1)
        = .ok (.copied "a.py\n```python\nprint(1)\n```\n======\n")
    ∧ mainGo (envOf readScenario) cfgP "/d" ["-ignore-gitignore"] (some 1)
        = .error "No files specified. Please provide at least one file." :=
  ⟨rfl, rfl, rfl⟩

/-- C5 (corrected): automatic preset selection.  In `src/unnamed/part_000`
the claim holds: zero presets is fatal with the usage message that tells the
user to save one with `-name`; exactly one preset is taken with no
interaction (the result does not depend on the stdin number); several
presets are offered as a 1-based list where a valid index selects and an
out-of-range or non-numeric answer (`Sscanf` leaves the index `0`) is fatal.
In `src/main.go` the resolver runs only when the token list is empty, and
even a single preset goes through the numbered prompt, a failed read being
fatal. -/
theorem c5_auto_selection :
    (∀ (cfg : Config) (prog cwd : String) (opts : Opts) (i : Int),
        opts.byName = "" → opts.files = [] →
        lookupA cfg.folders cwd = none →
        v0Select cfg prog cwd opts i = .error (v0UsageMsg prog cwd))
    ∧ (∀ (cfg : Config) (prog cwd : String) (opts : Opts) (i : Int) (fc : FolderConfig),
        opts.byName = "" → opts.files = [] →
        lookupA cfg.folders cwd = some fc → fc.savedName = [] →
        v0Select cfg prog cwd opts i = .error (v0UsageMsg prog cwd))
    ∧ (∀ (cfg : Config) (prog cwd : String) (opts : Opts) (i : Int) (fc : FolderConfig)
        (n : String) (a : List String),
        opts.byName = "" → opts.files = [] →
        lookupA cfg.folders cwd = some fc → fc.savedName = [(n, a)] →
        v0Select cfg prog cwd opts i = .ok (some a))
    ∧ (∀ (cfg : Config) (prog cwd : String) (opts : Opts) (i : Int) (fc : FolderConfig),
        opts.byName = "" → opts.files = [] →
        lookupA cfg.folders cwd = some fc → 2 ≤ fc.savedName.length →
        ((1 ≤ i ∧ i ≤ (fc.savedName.length : Int)) →
          v0Select cfg prog cwd opts i
            = .ok (some ((lookupA fc.savedName
                ((fc.savedName.map Prod.fst).getD (i - 1).toNat "")).getD [])))
        ∧ ((i < 1 ∨ (fc.savedName.length : Int) < i) →
          v0Select cfg prog cwd opts i = .error "Invalid selection"))
    ∧ (∀ (env : Env) (cfg : Config) (cwd : String) (fc : FolderConfig)
        (n : String) (a : List String),
        lookupA cfg.folders cwd = some fc → fc.savedName = [(n, a)] →
        mainGo env cfg cwd [] none = .error "Invalid choice") := by
  refine ⟨?_, ?_, ?_, ?_, ?_⟩
  · intro cfg prog cwd opts i hby hfiles hlook
    simp [v0Select, hby, hfiles, hlook]
  · intro cfg prog cwd opts i fc hby hfiles hlook hempty
    simp [v0Select, hby, hfiles, hlook, hempty]
  · intro cfg prog cwd opts i fc n a hby hfiles hlook hone
    simp [v0Select, hby, hfiles, hlook, hone, lookupA]
  · intro cfg prog cwd opts i fc hby hfiles hlook hlen
    have hne : fc.savedName ≠ [] := by
      intro h; rw [h] at hlen; simp at hlen
    have hlen1 : ¬(fc.savedName.length = 1) := by omega
    constructor
    · intro hvalid
      have hcond : ¬(i < 1 ∨ (fc.savedName.length : Int) < i) := by omega
      simp [v0Select, hby, hfiles, hlook, hne, hlen1, hcond]
    · intro hinvalid
      have hcond : i < 1 ∨ (fc.savedName.length : Int) < i := by omega
      simp [v0Select, hby, hfiles, hlook, hne, hlen1, hcond]
  · intro env cfg cwd fc n a hlook hone
    simp [mainGo, hlook, hone]

/-- C5, witness: the one-preset conjunct at a concrete configuration and an
arbitrary stdin number, and the `src/main.go` prompt conjunct at the same
configuration. -/
theorem c5_auto_selection_witness :
    v0Select cfgP "prog" "/d" {} 5 = .ok (some ["-files", "a.py"])
    ∧ mainGo (envOf readScenario) cfgP "/d" [] none = .error "Invalid choice" :=
  ⟨c5_auto_selection.2.2.1 cfgP "prog" "/d" {} 5
      { savedName := [("p", ["-files", "a.py"])] } "p" ["-files", "a.py"] rfl rfl rfl rfl,
   c5_auto_selection.2.2.2.2 (envOf readScenario) cfgP "/d"
      { savedName := [("p", ["-files", "a.py"])] } "p" ["-files", "a.py"] rfl rfl⟩

/-- C6 (confirmed): the spec's two-file scenario, identical in both
variants. -/
theorem c6_two_file_scenario :
    getData (envOf readScenario) ["a.py", "b.unknown"] "" false "======" true "" [] []
      = .ok "a.py\n```python\nprint(1)\n```\n======\nb.unknown\n```plaintext\nxyz\n```\n======\n"
    ∧ v0GetData (envOf readScenario) { files := ["a.py", "b.unknown"] } []
      = .ok "a.py\n```python\nprint(1)\n```\n======\nb.unknown\n```plaintext\nxyz\n```\n======\n" :=
  ⟨rfl, rfl⟩

/-- A file the `part_000` loop passes over without touching the carried
executable output: it is filtered out, or no command resolves for it. -/
def carryNeutral (ctx : RunCtx) (f : String) : Prop :=
  skipsFile ctx f = true ∨ resolveExec ctx (filepathExt f) = ""

theorem v0Loop_append_neutral (ctx : RunCtx) (o : String) :
    ∀ between : List String, (∀ b ∈ between, carryNeutral ctx b) →
    ∀ l : List String, ∃ pre : String,
      v0Loop ctx o (between ++ l) =
        match v0Loop ctx o l with
        | .error e => .error e
        | .ok s => .ok (pre ++ s) := by
  intro between
  induction between with
  | nil =>
    intro _ l
    refine ⟨"", ?_⟩
    cases h : v0Loop ctx o l with
    | error e => rw [List.nil_append, h]
    | ok s => rw [List.nil_append, h]; rfl
  | cons b between ih =>
    intro hn l
    have hb : carryNeutral ctx b := hn b (List.mem_cons_self b between)
    obtain ⟨pre, hpre⟩ := ih (fun x hx => hn x (List.mem_cons_of_mem b hx)) l
    cases hr : regexSkip ctx b with
    | true =>
      refine ⟨pre, ?_⟩
      simpa [v0Loop, hr] using hpre
    | false =>
      cases hg : gitSkip ctx b with
      | true =>
        refine ⟨pre, ?_⟩
        simpa [v0Loop, hr, hg] using hpre
      | false =>
        have hexec : resolveExec ctx (filepathExt b) = "" := by
          rcases hb with hskip | hexec
          · exfalso
            rw [skipsFile, hr, hg] at hskip
            simp at hskip
          · exact hexec
        cases hread : ctx.read b with
        | none =>
          refine ⟨pre, ?_⟩
          simpa [v0Loop, hr, hg, hexec, v0ExecStep, hread] using hpre
        | some content =>
          refine ⟨renderBlock ctx b content o ++ pre, ?_⟩
          simp only [List.cons_append, v0Loop, hr, hg, hexec, v0ExecStep, if_pos,
            Bool.false_eq_true, if_false, hread]
          rw [List.append_eq, hpre]
          cases h2 : v0Loop ctx o l with
          | error e => rfl
          | ok s => simp [stringAppendAssoc]

/-- C3 (confirmed): in `src/unnamed/part_000` the captured output is not
reset between iterations — after file `k`'s command captures a non-empty
`o`, any later non-skipped file `m` with no resolved command (nothing in
between having run a command) emits `o` inside its own block before the
delimiter; in `src/main.go` the captured output is scoped per iteration, so
a file with no resolved command always emits the block rendered with the
empty captured output, whatever was processed before it. -/
theorem c3_exec_output_carryover :
    (∀ (ctx : RunCtx) (c0 k : String) (between : List String) (m o ck cm : String),
        skipsFile ctx k = false →
        resolveExec ctx (filepathExt k) ≠ "" →
        runResolved ctx (resolveExec ctx (filepathExt k)) k = .ok o →
        o ≠ "" →
        ctx.read k = some ck →
        (∀ b ∈ between, carryNeutral ctx b) →
        skipsFile ctx m = false →
        resolveExec ctx (filepathExt m) = "" →
        ctx.read m = some cm →
        ∃ pre : String,
          v0Loop ctx c0 (k :: (between ++ [m])) = .ok (pre ++ renderBlock ctx m cm o))
    ∧ (∀ (ctx : RunCtx) (f : String) (rest : List String) (content : String),
        skipsFile ctx f = false →
        resolveExec ctx (filepathExt f) = "" →
        ctx.read f = some content →
        getDataLoop ctx (f :: rest) =
          match getDataLoop ctx rest with
          | .error e => .error e
          | .ok restOut => .ok (renderBlock ctx f content "" ++ restOut)) := by
  constructor
  · intro ctx c0 k between m o ck cm hk hkexec hkrun ho hkread hneutral hm hmexec hmread
    have hkr : regexSkip ctx k = false := by
      rw [skipsFile] at hk
      exact (Bool.or_eq_false_iff.mp hk).1
    have hkg : gitSkip ctx k = false := by
      rw [skipsFile] at hk
      exact (Bool.or_eq_false_iff.mp hk).2
    have hmr : regexSkip ctx m = false := by
      rw [skipsFile] at hm
      exact (Bool.or_eq_false_iff.mp hm).1
    have hmg : gitSkip ctx m = false := by
      rw [skipsFile] at hm
      exact (Bool.or_eq_false_iff.mp hm).2
    have hmstep : v0Loop ctx o [m] = .ok (renderBlock ctx m cm o ++ "") := by
      simp [v0Loop, hmr, hmg, hmexec, v0ExecStep, hmread]
    obtain ⟨pre, hpre⟩ := v0Loop_append_neutral ctx o between hneutral [m]
    refine ⟨renderBlock ctx k ck o ++ pre, ?_⟩
    have hstep : v0Loop ctx c0 (k :: (between ++ [m])) =
        match v0Loop ctx o (between ++ [m]) with
        | .error e => .error e
        | .ok restOut => .ok (renderBlock ctx k ck o ++ restOut) := by
      simp [v0Loop, hkr, hkg, v0ExecStep, hkexec, hkrun, hkread]
    rw [hstep, hpre, hmstep]
    rw [stringAppendNil, stringAppendAssoc]
  · intro ctx f rest content hf hfexec hfread
    have hfr : regexSkip ctx f = false := by
      rw [skipsFile] at hf
      exact (Bool.or_eq_false_iff.mp hf).1
    have hfg : gitSkip ctx f = false := by
      rw [skipsFile] at hf
      exact (Bool.or_eq_false_iff.mp hf).2
    simp [getDataLoop, hfr, hfg, hfexec, execStep, hfread]

/-- File contents for the carry-over witness run. -/
def readCarry : String → Option String :=
  fun f =>
    if f = "a.go" then some "package main"
    else if f = "b.txt" then some "hello"
    else none

/-- A run context whose merged map gives `.go` files the command `lint`,
whose subprocess oracle answers `lint` with a non-empty capture, and which
filters nothing. -/
def ctxCarry : RunCtx :=
  { read := readCarry,
    exec := fun p _ => if p = "lint" then .ok "warnings here" else .ok "",
    rel := fun f => some f,
    ignoreRegex := none, ignoreGitIgnore := true, gitM := none,
    delimiter := "======", wrapCode := false, execCommand := "",
    merged := [(".go", "lint")] }

/-- C3, witness: processing `[a.go, b.txt]` in the `part_000` variant leaks
`a.go`'s captured `warnings here` into `b.txt`'s block; the `src/main.go`
loop renders `b.txt` with the empty captured output. -/
theorem c3_exec_output_carryover_witness :
    (∃ pre : String,
        v0Loop ctxCarry "" ["a.go", "b.txt"]
          = .ok (pre ++ renderBlock ctxCarry "b.txt" "hello" "warnings here"))
    ∧ getDataLoop ctxCarry ["b.txt"] =
        match getDataLoop ctxCarry [] with
        | .error e => .error e
        | .ok restOut => .ok (renderBlock ctxCarry "b.txt" "hello" "" ++ restOut) :=
  ⟨c3_exec_output_carryover.1 ctxCarry "" "a.go" [] "b.txt" "warnings here" "package main"
      "hello" rfl (by decide) rfl (by decide) rfl
      (by intro b hb; cases hb) rfl rfl rfl,
   c3_exec_output_carryover.2 ctxCarry "b.txt" [] "hello" rfl rfl rfl⟩

/-- C8 (confirmed): with an ignore regex compiled, processing a file list is
identical — same output, same errors, in both variants — to processing the
list with every matching path removed first: a matching file is skipped
before any executable, read, or emission, whatever the gitignore state. -/
theorem c8_ignore_pattern_filter :
    ∀ (ctx : RunCtx) (m : String → Bool), ctx.ignoreRegex = some m →
      ∀ files : List String,
        getDataLoop ctx files = getDataLoop ctx (files.filter (fun f => !(m f)))
        ∧ ∀ c : String, v0Loop ctx c files = v0Loop ctx c (files.filter (fun f => !(m f))) := by
  intro ctx m hm files
  induction files with
  | nil => exact ⟨rfl, fun c => rfl⟩
  | cons f rest ih =>
    have hr : regexSkip ctx f = m f := by simp [regexSkip, hm]
    cases hmf : m f with
    | true =>
      have hfil : (f :: rest).filter (fun x => !(m x)) = rest.filter (fun x => !(m x)) := by
        simp [List.filter_cons, hmf]
      rw [hfil]
      constructor
      · rw [show getDataLoop ctx (f :: rest) = getDataLoop ctx rest by
          simp [getDataLoop, hr, hmf]]
        exact ih.1
      · intro c
        rw [show v0Loop ctx c (f :: rest) = v0Loop ctx c rest by
          simp [v0Loop, hr, hmf]]
        exact ih.2 c
    | false =>
      have hfil : (f :: rest).filter (fun x => !(m x)) = f :: rest.filter (fun x => !(m x)) := by
        simp [List.filter_cons, hmf]
      rw [hfil]
      have hrf : regexSkip ctx f = false := by rw [hr, hmf]
      constructor
      · cases hg : gitSkip ctx f with
        | true =>
          rw [show getDataLoop ctx (f :: rest) = getDataLoop ctx rest by
            simp [getDataLoop, hrf, hg]]
          rw [show getDataLoop ctx (f :: rest.filter (fun x => !(m x)))
              = getDataLoop ctx (rest.filter (fun x => !(m x))) by
            simp [getDataLoop, hrf, hg]]
          exact ih.1
        | false =>
          simp only [getDataLoop, hrf, hg, Bool.false_eq_true, if_false]
          rw [ih.1]
      · intro c
        cases hg : gitSkip ctx f with
        | true =>
          rw [show v0Loop ctx c (f :: rest) = v0Loop ctx c rest by
            simp [v0Loop, hrf, hg]]
          rw [show v0Loop ctx c (f :: rest.filter (fun x => !(m x)))
              = v0Loop ctx c (rest.filter (fun x => !(m x))) by
            simp [v0Loop, hrf, hg]]
          exact ih.2 c
        | false =>
          simp only [v0Loop, hrf, hg, Bool.false_eq_true, if_false]
          cases hstep : v0ExecStep ctx c (resolveExec ctx (filepathExt f)) f with
          | error e => rfl
          | ok carry2 => simp only [ih.2]

/-- A run context whose ignore regex matches exactly the path `skip.txt`. -/
def ctxPattern : RunCtx :=
  { read := fun f => if f = "keep.txt" then some "data" else none,
    exec := fun _ _ => .ok "", rel := fun f => some f,
    ignoreRegex := some (fun f => f == "skip.txt"),
    ignoreGitIgnore := false, gitM := none,
    delimiter := "======", wrapCode := true, execCommand := "", merged := [] }

/-- C8, witness: dropping the matching `skip.txt` up front leaves both
loops' results unchanged on a concrete list. -/
theorem c8_ignore_pattern_filter_witness :
    getDataLoop ctxPattern ["skip.txt", "keep.txt"]
      = getDataLoop ctxPattern (["skip.txt", "keep.txt"].filter (fun f => !(f == "skip.txt")))
    ∧ v0Loop ctxPattern "" ["skip.txt", "keep.txt"]
      = v0Loop ctxPattern "" (["skip.txt", "keep.txt"].filter (fun f => !(f == "skip.txt"))) :=
  ⟨(c8_ignore_pattern_filter ctxPattern (fun f => f == "skip.txt") rfl
      ["skip.txt", "keep.txt"]).1,
   (c8_ignore_pattern_filter ctxPattern (fun f => f == "skip.txt") rfl
      ["skip.txt", "keep.txt"]).2 ""⟩

/-- C9 (confirmed): in the `src/main.go` loop a file whose content read
fails (after a non-fatal executable step) is dropped and the run's result is
exactly that of the remaining files, while a launch failure or non-zero exit
of the resolved command ends the whole run with the diagnostic that carries
the command, the file, the Go error and the captured output. -/
theorem c9_read_skip_exec_fatal :
    (∀ (ctx : RunCtx) (f : String) (rest : List String) (o : String),
        skipsFile ctx f = false →
        execStep ctx (resolveExec ctx (filepathExt f)) f = .ok o →
        ctx.read f = none →
        getDataLoop ctx (f :: rest) = getDataLoop ctx rest)
    ∧ (∀ (ctx : RunCtx) (f : String) (rest : List String) (p : String) (ps : List String)
        (emsg out : String),
        skipsFile ctx f = false →
        resolveExec ctx (filepathExt f) ≠ "" →
        fields (resolveExec ctx (filepathExt f)) = p :: ps →
        ctx.exec p (ps ++ [f]) = .err emsg out →
        getDataLoop ctx (f :: rest)
          = .error ("failed to run executable '" ++ resolveExec ctx (filepathExt f)
              ++ "' with file '" ++ f ++ "': " ++ emsg ++ "\nOutput: " ++ out)) := by
  constructor
  · intro ctx f rest o hf hstep hread
    have hfr : regexSkip ctx f = false := by
      rw [skipsFile] at hf
      exact (Bool.or_eq_false_iff.mp hf).1
    have hfg : gitSkip ctx f = false := by
      rw [skipsFile] at hf
      exact (Bool.or_eq_false_iff.mp hf).2
    simp [getDataLoop, hfr, hfg, hstep, hread]
  · intro ctx f rest p ps emsg out hf hne hfields hexec
    have hfr : regexSkip ctx f = false := by
      rw [skipsFile] at hf
      exact (Bool.or_eq_false_iff.mp hf).1
    have hfg : gitSkip ctx f = false := by
      rw [skipsFile] at hf
      exact (Bool.or_eq_false_iff.mp hf).2
    have hstep : execStep ctx (resolveExec ctx (filepathExt f)) f
        = .error ("failed to run executable '" ++ resolveExec ctx (filepathExt f)
            ++ "' with file '" ++ f ++ "': " ++ emsg ++ "\nOutput: " ++ out) := by
      rw [execStep, if_neg hne, runResolved, hfields]
      simp [hexec]
    simp [getDataLoop, hfr, hfg, hstep]

/-- A run context whose `.go` command `badcmd` fails with combined output
`boom`, and where `gone.txt` cannot be read. -/
def ctxFail : RunCtx :=
  { read := fun f => if f = "ok.txt" then some "fine" else none,
    exec := fun p _ => if p = "badcmd" then .err "exit status 1" "boom" else .ok "",
    rel := fun f => some f,
    ignoreRegex := none, ignoreGitIgnore := true, gitM := none,
    delimiter := "======", wrapCode := true, execCommand := "",
    merged := [(".go", "badcmd")] }

/-- C9, witness: an unreadable file is dropped with the run intact, and a
failing command is fatal with the full diagnostic. -/
theorem c9_read_skip_exec_fatal_witness :
    getDataLoop ctxFail ["gone.txt", "ok.txt"] = getDataLoop ctxFail ["ok.txt"]
    ∧ getDataLoop ctxFail ["x.go"]
      = .error "failed to run executable 'badcmd' with file 'x.go': exit status 1\nOutput: boom" :=
  ⟨c9_read_skip_exec_fatal.1 ctxFail "gone.txt" ["ok.txt"] "" rfl rfl rfl,
   c9_read_skip_exec_fatal.2 ctxFail "x.go" [] "badcmd" [] "exit status 1" "boom"
      rfl (by decide) rfl rfl⟩

/-- Whether a character list starts with the three-backtick fence marker. -/
def fenceAt : List Char → Bool
  | '`' :: '`' :: '`' :: _ => true
  | _ => false

/-- Whether a character list contains the fence marker anywhere. -/
def containsFence : List Char → Bool
  | [] => false
  | c :: cs => fenceAt (c :: cs) || containsFence cs

/-- A string without the backtick character. -/
def noBacktick (s : String) : Prop := '`' ∉ s.data

theorem noBacktick_append {a b : String} (ha : noBacktick a) (hb : noBacktick b) :
    noBacktick (a ++ b) := by
  unfold noBacktick at *
  rw [stringDataAppend]
  rw [List.mem_append]
  exact fun h => h.elim ha hb

theorem containsFence_eq_false {l : List Char} (h : '`' ∉ l) :
    containsFence l = false := by
  induction l with
  | nil => rfl
  | cons c cs ih =>
    have hc : c ≠ '`' := fun hc => h (hc ▸ List.mem_cons_self c cs)
    have hcs : '`' ∉ cs := fun hm => h (List.mem_cons_of_mem c hm)
    have hat : fenceAt (c :: cs) = false := by
      unfold fenceAt
      cases c with
      | mk v hv =>
        by_cases hc2 : Char.mk v hv = '`'
        · exact absurd hc2 hc
        · cases cs <;> simp_all [fenceAt]
    simp [containsFence, hat, ih hcs]

theorem execStep_noBacktick {ctx : RunCtx} {e f o : String}
    (hx : ∀ p a out, ctx.exec p a = .ok out → noBacktick out)
    (h : execStep ctx e f = .ok o) : noBacktick o := by
  unfold execStep at h
  by_cases he : e = ""
  · rw [if_pos he] at h
    cases h
    intro hm
    cases hm
  · rw [if_neg he] at h
    cases hf : fields e with
    | nil =>
      simp only [runResolved, hf] at h
      exact Except.noConfusion h
    | cons p ps =>
      simp only [runResolved, hf] at h
      cases hex : ctx.exec p (ps ++ [f]) with
      | ok out =>
        simp only [hex] at h
        cases h
        exact hx p (ps ++ [f]) o hex
      | err m o2 =>
        simp only [hex] at h
        exact Except.noConfusion h

theorem renderBlock_noBacktick {ctx : RunCtx} {f content execOut : String}
    (hw : ctx.wrapCode = false) (hf : noBacktick f) (hc : noBacktick content)
    (he : noBacktick execOut) (hd : noBacktick ctx.delimiter) :
    noBacktick (renderBlock ctx f content execOut) := by
  have hnl : noBacktick "\n" := by unfold noBacktick; decide
  have hempty : noBacktick "" := by unfold noBacktick; decide
  unfold renderBlock
  rw [hw]
  by_cases hex : execOut = ""
  · rw [hex]
    simp only [Bool.false_eq_true, if_false, ne_eq, not_true_eq_false]
    repeat' apply noBacktick_append
    all_goals first
      | exact hf | exact hc | exact hd | exact hnl | exact hempty
  · simp only [Bool.false_eq_true, if_false, ne_eq, hex, not_false_eq_true, if_true]
    repeat' apply noBacktick_append
    all_goals first
      | exact hf | exact hc | exact hd | exact hnl | exact hempty | exact he

theorem getDataLoop_noBacktick (ctx : RunCtx) (files : List String)
    (hw : ctx.wrapCode = false)
    (hd : noBacktick ctx.delimiter)
    (hfs : ∀ f ∈ files, noBacktick f)
    (hreads : ∀ f s, ctx.read f = some s → noBacktick s)
    (hx : ∀ p a out, ctx.exec p a = .ok out → noBacktick out) :
    ∀ out, getDataLoop ctx files = .ok out → noBacktick out := by
  induction files with
  | nil =>
    intro out h
    unfold getDataLoop at h
    cases h
    unfold noBacktick
    decide
  | cons f rest ih =>
    have hrest : ∀ g ∈ rest, noBacktick g := fun g hg => hfs g (List.mem_cons_of_mem f hg)
    have hf : noBacktick f := hfs f (List.mem_cons_self f rest)
    intro out h
    unfold getDataLoop at h
    by_cases hr : regexSkip ctx f = true
    · rw [if_pos hr] at h
      exact ih hrest out h
    · rw [if_neg hr] at h
      by_cases hg : gitSkip ctx f = true
      · rw [if_pos hg] at h
        exact ih hrest out h
      · rw [if_neg hg] at h
        cases hstep : execStep ctx (resolveExec ctx (filepathExt f)) f with
        | error e => rw [hstep] at h; cases h
        | ok eo =>
          rw [hstep] at h
          cases hread : ctx.read f with
          | none =>
            rw [hread] at h
            exact ih hrest out h
          | some content =>
            rw [hread] at h
            cases hloop : getDataLoop ctx rest with
            | error e => rw [hloop] at h; cases h
            | ok restOut =>
              rw [hloop] at h
              cases h
              exact noBacktick_append
                (renderBlock_noBacktick hw hf (hreads f content hread)
                  (execStep_noBacktick hx hstep) hd)
                (ih hrest restOut hloop)

/-- C7 (corrected): with wrap-code off, the tool itself emits no fence — a
run over backtick-free paths, contents, captured outputs and delimiter
contains no triple-backtick marker (file contents may still supply one, see
the counterexample); with wrap-code on, every emitted block fences its
content, opening with the language mapped from the extension, `plaintext`
when the table has no entry. -/
theorem c7_wrap_code_fences :
    (∀ (ctx : RunCtx) (files : List String),
        ctx.wrapCode = false →
        noBacktick ctx.delimiter →
        (∀ f ∈ files, noBacktick f) →
        (∀ f s, ctx.read f = some s → noBacktick s) →
        (∀ p a out, ctx.exec p a = .ok out → noBacktick out) →
        ∀ out, getDataLoop ctx files = .ok out → containsFence out.data = false)
    ∧ (∀ (ctx : RunCtx) (f content execOut : String),
        ctx.wrapCode = true →
        renderBlock ctx f content execOut
          = f ++ "\n" ++ ("```" ++ languageFor (filepathExt f) ++ "\n") ++ content ++ "\n"
            ++ "```\n" ++ (if execOut ≠ "" then execOut ++ "\n" else "")
            ++ ctx.delimiter ++ "\n")
    ∧ (∀ e : String, lookupA languageMap e = none → languageFor e = "plaintext") := by
  refine ⟨?_, ?_, ?_⟩
  · intro ctx files hw hd hfs hreads hx out h
    exact containsFence_eq_false (getDataLoop_noBacktick ctx files hw hd hfs hreads hx out h)
  · intro ctx f content execOut hw
    unfold renderBlock
    rw [hw]
    simp
  · intro e h
    unfold languageFor
    rw [h]

/-- A backtick-free single-file world for the C7 witness. -/
def ctxPlain : RunCtx :=
  { read := fun f => if f = "a.txt" then some "hello" else none,
    exec := fun _ _ => .ok "", rel := fun f => some f,
    ignoreRegex := none, ignoreGitIgnore := true, gitM := none,
    delimiter := "======", wrapCode := false, execCommand := "", merged := [] }

/-- C7, witness: the no-fence conjunct at a concrete backtick-free run, the
block-shape conjunct at a concrete wrapping context, and the `plaintext`
fallback at the unmapped `.xyz`. -/
theorem c7_wrap_code_fences_witness :
    containsFence "a.txt\nhello\n======\n".data = false
    ∧ renderBlock ctxPattern "a.xyz" "data" ""
      = "a.xyz" ++ "\n" ++ ("```" ++ languageFor (filepathExt "a.xyz") ++ "\n") ++ "data" ++ "\n"
        ++ "```\n" ++ (if ("" : String) ≠ "" then "" ++ "\n" else "")
        ++ ctxPattern.delimiter ++ "\n"
    ∧ languageFor ".xyz" = "plaintext" := by
  refine ⟨?_, ?_, ?_⟩
  · exact c7_wrap_code_fences.1 ctxPlain ["a.txt"] rfl (by unfold noBacktick; decide)
      (by intro f hf; cases hf with
        | head => unfold noBacktick; decide
        | tail _ hm => cases hm)
      (by intro f s hs
          simp only [ctxPlain] at hs
          split at hs
          · cases hs; unfold noBacktick; decide
          · cases hs)
      (by intro p a out hout
          cases hout
          unfold noBacktick; decide)
      "a.txt\nhello\n======\n" rfl
  · exact c7_wrap_code_fences.2.1 ctxPattern "a.xyz" "data" "" rfl
  · exact c7_wrap_code_fences.2.2 ".xyz" rfl

/-- Contents holding a fence marker for the C7 counterexample. -/
def readFenceContent : String → Option String :=
  fun f => if f = "a.xyz" then some "```" else none

/-- C7, counterexample: with `-wrap-code false` a file whose content is a
fence marker makes the output contain one, so the claim's universal
quantification over file contents fails. -/
theorem c7_fence_from_content :
    getData (envOf readFenceContent) ["a.xyz"] "" false "======" false "" [] []
      = .ok "a.xyz\n```\n======\n"
    ∧ containsFence "a.xyz\n```\n======\n".data = true :=
  ⟨rfl, rfl⟩
